import Mathlib

/-!
Verification of the desktop-chat-AI authentication vault, session gate,
transcript store and analytics against the repository sources
(src/main.py and src/ui/components.py).  Components implemented in
utils/cache.py and utils/analytics.py are not part of the provided
sources; where a claim depends on them they are modelled from the
specification, and each such definition says so in its doc comment.
-/

namespace DesktopChatAI

/-! ## Credential Vault -/

/-- Modelled from the spec: utils/cache.py (ChatCache.save_auth_data,
check_pin, get_api_key, has_auth_data) is not under src/.  The vault holds
at most one credential record: the API key together with the PIN verifier.
The spec demands a one-way verifier; functionally the check recomputes the
verifier from the candidate and compares, which we model with the PIN
itself standing for its verifier (the observable boolean behaviour is the
same for an injective derivation). -/
structure Vault where
  record : Option (String × String)
deriving DecidableEq

/-- Modelled from the spec: storing a credential overwrites any prior
record with the key and the verifier derived from the fresh PIN. -/
def store_credential (_ : Vault) (apiKey pin : String) : Vault :=
  Vault.mk (some (apiKey, pin))

/-- Modelled from the spec: true iff a credential record is present. -/
def has_credential (v : Vault) : Bool :=
  v.record.isSome

/-- Modelled from the spec: recompute the verifier from the candidate and
compare with the stored verifier; false (never an error) on mismatch or
when no record exists. -/
def verify_pin (v : Vault) (candidate : String) : Bool :=
  match v.record with
  | some (_, pin) => candidate == pin
  | none => false

/-- Modelled from the spec: the stored credential, absent if no record. -/
def get_api_key (v : Vault) : Option String :=
  v.record.map Prod.fst

/-! ## PIN generation (src/ui/components.py, AuthScreen.validate_api_key)

The source builds the PIN from four independent draws of
random.randint(0, 9), each rendered with str and joined:
pin = ''.join([str(random.randint(0, 9)) for _ in range(4)]).
The four draws are the function argument; randint(0, 9) is inclusive on
both ends, which is the hypothesis draw i <= 9 in the theorems. -/

def generate_pin (draw : Fin 4 → Nat) : String :=
  toString (draw 0) ++ toString (draw 1) ++ toString (draw 2) ++ toString (draw 3)

/-! ## PIN screen (src/ui/components.py, PinScreen.validate_pin)

The UI state tracked by validate_pin and show_error: the status text value,
its visibility, and whether the pin field border was turned red.
show_error overwrites all three fields regardless of the previous state. -/

structure PinUi where
  statusValue : String
  statusVisible : Bool
  fieldBorderRed : Bool
deriving DecidableEq

/-- Embeds PinScreen.show_error: sets the status text, makes it visible and
turns the field border red; the prior UI state is not consulted. -/
def show_error (_ : PinUi) (message : String) : PinUi :=
  PinUi.mk message true true

/-- The session gate as seen from the PIN screen: still locked (showing
some UI state) or authenticated (on_pin_validated fired). -/
inductive GateState where
  | Locked (ui : PinUi)
  | Authenticated
deriving DecidableEq

/-- Embeds PinScreen.validate_pin: empty, wrong-length and non-digit PINs
are rejected with an error message before the vault is consulted; a
verified PIN authenticates; a wrong PIN shows an error and stays locked. -/
def validate_pin (vault : Vault) (ui : PinUi) (pin : String) : GateState :=
  if pin = "" then GateState.Locked (show_error ui "Введите PIN-код")
  else if pin.length ≠ 4 then GateState.Locked (show_error ui "PIN-код должен содержать 4 цифры")
  else if !(pin.toList.all Char.isDigit) then
    GateState.Locked (show_error ui "PIN-код должен содержать только цифры")
  else if verify_pin vault pin then GateState.Authenticated
  else GateState.Locked (show_error ui "Неверный PIN-код")

/-! ## Launch (src/main.py, ChatApp.main lines 155-165) -/

inductive Screen where
  | pinEntry
  | apiKeyEntry
deriving DecidableEq

inductive SessionState where
  | NoCredential
  | PendingValidation
  | PinIssued
  | Locked
  | Authenticated
deriving DecidableEq

/-- Embeds the launch branch of ChatApp.main: if cache.has_auth_data()
then the PinScreen is added to the page, else the AuthScreen. -/
def initial_screen (hasAuthData : Bool) : Screen :=
  if hasAuthData then Screen.pinEntry else Screen.apiKeyEntry

/-- The session-gate state corresponding to the launch branch: a stored
credential puts the gate in Locked, otherwise NoCredential. -/
def initial_session_state (hasAuthData : Bool) : SessionState :=
  if hasAuthData then SessionState.Locked else SessionState.NoCredential

/-! ## Message cleaning (src/ui/components.py, MessageBubble.clean_message)

The source is re.sub applied with pattern <[^>]+> and empty replacement:
scanning left to right, at a '<' the pattern matches when at least one
character other than '>' follows and then a '>'; the greedy class [^>]+
stops at the first '>', so the match spans the '<', the run of characters
other than '>', and that first '>'.  Matched spans are removed, scanning
resumes after the consumed '>', and positions where no match starts are
kept verbatim. -/

/-- The suffix after the first '>' of the input, none when no '>' occurs:
the continuation of a tag match after its body. -/
def afterGt : List Char → Option (List Char)
  | [] => none
  | c :: cs => if c = '>' then some cs else afterGt cs

/-- Given the characters following a '<', the remainder of the input after
a tag match starting at that '<'; none when the pattern does not match
there (the body must be nonempty, so the first character may not be '>',
and a closing '>' must occur). -/
def splitTag : List Char → Option (List Char)
  | [] => none
  | c :: cs => if c = '>' then none else afterGt cs

theorem afterGt_length : ∀ {cs r : List Char}, afterGt cs = some r → r.length < cs.length := by
  intro cs
  induction cs with
  | nil => intro r h; simp [afterGt] at h
  | cons c cs ih =>
    intro r h
    by_cases hc : c = '>'
    · simp only [afterGt, if_pos hc] at h
      injection h with h
      subst h
      exact Nat.lt_succ_self _
    · simp only [afterGt, if_neg hc] at h
      exact Nat.lt_trans (ih h) (Nat.lt_succ_self _)

theorem splitTag_length {cs r : List Char} (h : splitTag cs = some r) : r.length < cs.length := by
  cases cs with
  | nil => simp [splitTag] at h
  | cons c cs =>
    by_cases hc : c = '>'
    · simp [splitTag, hc] at h
    · simp only [splitTag, if_neg hc] at h
      exact Nat.lt_trans (afterGt_length h) (Nat.lt_succ_self _)

/-- Embeds the re.sub scan: remove every non-overlapping leftmost match of
the tag pattern, resuming after each removed span. -/
def cleanAux : List Char → List Char
  | [] => []
  | c :: cs =>
    if c = '<' then
      match h : splitTag cs with
      | some rest => cleanAux rest
      | none => c :: cleanAux cs
    else c :: cleanAux cs
termination_by l => l.length
decreasing_by
  · exact Nat.lt_trans (splitTag_length h) (Nat.lt_succ_self _)
  · exact Nat.lt_succ_self _
  · exact Nat.lt_succ_self _

/-- Embeds MessageBubble.clean_message: re.sub with the tag pattern and
empty replacement over the characters of the message. -/
def clean_message (message : String) : String :=
  String.mk (cleanAux message.data)

/-- True when some position of the list starts a match of the tag pattern:
a '<', then a nonempty run of characters other than '>', then '>'. -/
def hasTag : List Char → Bool
  | [] => false
  | c :: cs => (c == '<' && (splitTag cs).isSome) || hasTag cs

theorem cleanAux_nil : cleanAux [] = [] := by
  rw [cleanAux]

theorem cleanAux_cons_ne {c : Char} (hc : c ≠ '<') (cs : List Char) :
    cleanAux (c :: cs) = c :: cleanAux cs := by
  rw [cleanAux]
  simp [hc]

theorem cleanAux_cons_some {cs rest : List Char} (h : splitTag cs = some rest) :
    cleanAux ('<' :: cs) = cleanAux rest := by
  rw [cleanAux]
  rw [if_pos rfl]
  split
  · rename_i r heq
    rw [h] at heq
    injection heq with heq
    rw [heq]
  · rename_i heq
    rw [h] at heq
    cases heq

theorem cleanAux_cons_none {cs : List Char} (h : splitTag cs = none) :
    cleanAux ('<' :: cs) = '<' :: cleanAux cs := by
  rw [cleanAux]
  rw [if_pos rfl]
  split
  · rename_i r heq
    rw [h] at heq
    cases heq
  · rfl

theorem afterGt_none_of_not_mem {cs : List Char} (h : '>' ∉ cs) : afterGt cs = none := by
  induction cs with
  | nil => rfl
  | cons c cs ih =>
    have hc : ¬c = '>' := fun e => h (by simp [e])
    have htail : '>' ∉ cs := fun m => h (List.mem_cons_of_mem _ m)
    simp [afterGt, hc, ih htail]

theorem not_mem_of_afterGt_none : ∀ {cs : List Char}, afterGt cs = none → '>' ∉ cs := by
  intro cs
  induction cs with
  | nil => intro _ m; cases m
  | cons c cs ih =>
    intro h m
    by_cases hc : c = '>'
    · simp only [afterGt, if_pos hc] at h
      exact Option.noConfusion h
    · simp only [afterGt, if_neg hc] at h
      rcases List.mem_cons.mp m with e | m2
      · exact hc e.symm
      · exact ih h m2

theorem splitTag_none_of_not_mem {cs : List Char} (h : '>' ∉ cs) : splitTag cs = none := by
  cases cs with
  | nil => rfl
  | cons c cs =>
    have hc : ¬c = '>' := fun e => h (by simp [e])
    have htail : '>' ∉ cs := fun m => h (List.mem_cons_of_mem _ m)
    simp [splitTag, hc, afterGt_none_of_not_mem htail]

theorem splitTag_none_cases {cs : List Char} (h : splitTag cs = none) :
    cs = [] ∨ (∃ t, cs = '>' :: t) ∨ '>' ∉ cs := by
  cases cs with
  | nil => exact Or.inl rfl
  | cons c cs =>
    by_cases hc : c = '>'
    · exact Or.inr (Or.inl ⟨cs, by rw [hc]⟩)
    · simp only [splitTag, if_neg hc] at h
      refine Or.inr (Or.inr ?_)
      intro m
      rcases List.mem_cons.mp m with e | m2
      · exact hc e.symm
      · exact not_mem_of_afterGt_none h m2

theorem afterGt_sublist : ∀ {cs r : List Char}, afterGt cs = some r → r.Sublist cs := by
  intro cs
  induction cs with
  | nil => intro r h; simp [afterGt] at h
  | cons c cs ih =>
    intro r h
    by_cases hc : c = '>'
    · simp only [afterGt, if_pos hc] at h
      injection h with h
      subst h
      exact List.Sublist.cons c (List.Sublist.refl _)
    · simp only [afterGt, if_neg hc] at h
      exact List.Sublist.cons c (ih h)

theorem splitTag_sublist {cs r : List Char} (h : splitTag cs = some r) : r.Sublist cs := by
  cases cs with
  | nil => simp [splitTag] at h
  | cons c cs =>
    by_cases hc : c = '>'
    · simp [splitTag, hc] at h
    · simp only [splitTag, if_neg hc] at h
      exact List.Sublist.cons c (afterGt_sublist h)

theorem cleanAux_sublist : ∀ l : List Char, (cleanAux l).Sublist l := by
  intro l
  induction l using cleanAux.induct with
  | case1 => rw [cleanAux_nil]
  | case2 cs rest h ih =>
    rw [cleanAux_cons_some h]
    exact List.Sublist.trans ih (List.Sublist.cons '<' (splitTag_sublist h))
  | case3 cs h ih =>
    rw [cleanAux_cons_none h]
    exact List.Sublist.cons₂ '<' ih
  | case4 c cs hc ih =>
    rw [cleanAux_cons_ne hc]
    exact List.Sublist.cons₂ c ih

theorem splitTag_gt_cons (t : List Char) : splitTag ('>' :: t) = none := by
  simp [splitTag]

/-- The scrubbed character list admits no further match of the tag
pattern at any position. -/
theorem hasTag_cleanAux : ∀ l : List Char, hasTag (cleanAux l) = false := by
  intro l
  induction l using cleanAux.induct with
  | case1 => rw [cleanAux_nil]; rfl
  | case2 cs rest h ih =>
    rw [cleanAux_cons_some h]
    exact ih
  | case3 cs h ih =>
    rw [cleanAux_cons_none h]
    have hnone : splitTag (cleanAux cs) = none := by
      rcases splitTag_none_cases h with hnil | ⟨t, ht⟩ | hmem
      · subst hnil
        rw [cleanAux_nil]
        rfl
      · subst ht
        rw [cleanAux_cons_ne (by decide) t]
        exact splitTag_gt_cons _
      · exact splitTag_none_of_not_mem (fun m => hmem ((cleanAux_sublist cs).subset m))
    simp [hasTag, hnone, ih]
  | case4 c cs hc ih =>
    rw [cleanAux_cons_ne hc]
    have hb : (c == '<') = false := beq_eq_false_iff_ne.mpr hc
    simp [hasTag, hb, ih]

/-- A list containing no match of the tag pattern is left unchanged by the
scrub. -/
theorem cleanAux_of_hasTag_false : ∀ {l : List Char}, hasTag l = false → cleanAux l = l := by
  intro l
  induction l with
  | nil => intro _; exact cleanAux_nil
  | cons c cs ih =>
    intro h
    simp only [hasTag] at h
    rcases Bool.or_eq_false_iff.mp h with ⟨h1, h2⟩
    by_cases hc : c = '<'
    · subst hc
      have hsp : splitTag cs = none := by
        cases hq : splitTag cs with
        | none => rfl
        | some r => rw [hq] at h1; simp at h1
      rw [cleanAux_cons_none hsp, ih h2]
    · rw [cleanAux_cons_ne hc, ih h2]

/-! ## Message sending (src/main.py, ChatApp.send_message)

The collaborator response is a dict holding either an error key or the
choices/usage payload; usage.total_tokens defaults to 0 when absent. -/

inductive ApiResponse where
  | apiError (message : String)
  | ok (content : String) (usageTotalTokens : Option Nat)
deriving DecidableEq

/-- Embeds the response branch of ChatApp.send_message: an error response
yields the text "Ошибка: " followed by the error value and 0 tokens; a
success yields the message content and usage.total_tokens (0 if absent). -/
def process_response : ApiResponse → String × Nat
  | ApiResponse.apiError m => ("Ошибка: " ++ m, 0)
  | ApiResponse.ok c t => (c, t.getD 0)

/-- A transcript entry as appended by cache.save_message from
ChatApp.send_message (sequence id and timestamp are assigned inside the
store, which is not under src/; the fields below are the ones the caller
supplies). -/
structure Entry where
  model : String
  userMessage : String
  aiResponse : String
  tokens : Nat
deriving DecidableEq

inductive ChatItem where
  | userBubble (text : String)
  | aiBubble (text : String)
deriving DecidableEq

/-- One analytics.track_message call as issued by ChatApp.send_message. -/
structure TrackEvent where
  model : String
  messageLength : Nat
  tokens : Nat
deriving DecidableEq

structure AppState where
  transcript : List Entry
  chatHistory : List ChatItem
  analyticsEvents : List TrackEvent
deriving DecidableEq

/-- Result of one send_message call: the new application state and the
list of API-completion calls that were issued. -/
structure SendOutcome where
  state : AppState
  apiCalls : List (String × String)
deriving DecidableEq

/-- Embeds ChatApp.send_message: a falsy message (None or the empty
string) returns immediately; otherwise the completion collaborator is
called, the entry is appended to the transcript store via
cache.save_message, both bubbles are added to the chat history (each
bubble cleans its text through MessageBubble.clean_message), and
analytics.track_message records the exchange. -/
def send_message (st : AppState) (message : Option String)
    (api : String → String → ApiResponse) (model : String) : SendOutcome :=
  match message with
  | none => SendOutcome.mk st []
  | some m =>
    if m = "" then SendOutcome.mk st []
    else
      let rt := process_response (api m model)
      SendOutcome.mk
        (AppState.mk
          (st.transcript ++ [Entry.mk model m rt.1 rt.2])
          (st.chatHistory ++ [ChatItem.userBubble (clean_message m),
                              ChatItem.aiBubble (clean_message rt.1)])
          (st.analyticsEvents ++ [TrackEvent.mk model m.length rt.2]))
        [(m, model)]

/-! ## Export (src/main.py, ChatApp.save_dialog)

The cache rows are tuples (id, model, user_message, ai_response,
timestamp, tokens) as unpacked by load_chat_history and indexed by
save_dialog. -/

structure Row where
  id : Nat
  model : String
  userMessage : String
  aiResponse : String
  timestamp : String
  tokens : Nat
deriving DecidableEq

/-- The JSON fragment produced by the export: json.dump with
ensure_ascii False writes strings (non-ASCII preserved), integers,
arrays and objects; these are the only shapes the export document uses.
json.dump and json.load of the standard library are the external
encoding, modelled as the identity on this abstract syntax. -/
inductive Json where
  | str (s : String)
  | num (n : Int)
  | arr (items : List Json)
  | obj (fields : List (String × Json))

/-- Embeds the dialog_data record built by ChatApp.save_dialog for one
history row: str(msg[4]) is the identity on an already-string timestamp. -/
def row_to_json (r : Row) : Json :=
  Json.obj [("timestamp", Json.str r.timestamp),
            ("model", Json.str r.model),
            ("user_message", Json.str r.userMessage),
            ("ai_response", Json.str r.aiResponse),
            ("tokens", Json.num (r.tokens : Int))]

/-- Embeds the single structured document written per export call: the
array of all records from cache.get_chat_history(). -/
def export_document (history : List Row) : Json :=
  Json.arr (history.map row_to_json)

/-- One record of the export file format as the spec defines it. -/
structure ExportRecord where
  timestamp : String
  model : String
  userMessage : String
  aiResponse : String
  tokens : Int
deriving DecidableEq

def get_field (key : String) : List (String × Json) → Option Json
  | [] => none
  | (k, v) :: rest => if k = key then some v else get_field key rest

def as_str : Json → Option String
  | Json.str s => some s
  | _ => none

def as_num : Json → Option Int
  | Json.num n => some n
  | _ => none

/-- Modelled from the spec: the repository ships no importer, so parsing
back from the export format follows the spec of that format: a sequence
of records with timestamp, model, user_message, ai_response (strings) and
tokens (integer). -/
def parse_record (j : Json) : Option ExportRecord :=
  match j with
  | Json.obj fields => do
    let ts ← get_field "timestamp" fields >>= as_str
    let md ← get_field "model" fields >>= as_str
    let um ← get_field "user_message" fields >>= as_str
    let ar ← get_field "ai_response" fields >>= as_str
    let tk ← get_field "tokens" fields >>= as_num
    pure (ExportRecord.mk ts md um ar tk)
  | _ => none

/-- Modelled from the spec: parse the whole export document back. -/
def parse_export (j : Json) : Option (List ExportRecord) :=
  match j with
  | Json.arr items => items.mapM parse_record
  | _ => none

/-- The five exported fields of a stored row. -/
def row_record (r : Row) : ExportRecord :=
  ExportRecord.mk r.timestamp r.model r.userMessage r.aiResponse (r.tokens : Int)

/-! ## Export filename (src/main.py, ChatApp.save_dialog lines 503-509)

The source formats datetime.now() with strftime("%Y%m%d_%H%M%S");
datetime.now() is the LOCAL wall-clock time, not UTC. -/

structure DateTime6 where
  year : Nat
  month : Nat
  day : Nat
  hour : Nat
  minute : Nat
  second : Nat
deriving DecidableEq

/-- Two-digit zero padding, as strftime %m %d %H %M %S produce. -/
def pad2 (n : Nat) : String :=
  if n < 10 then "0" ++ toString n else toString n

/-- Four-digit zero padding, as strftime %Y produces. -/
def pad4 (n : Nat) : String :=
  if n < 10 then "000" ++ toString n
  else if n < 100 then "00" ++ toString n
  else if n < 1000 then "0" ++ toString n
  else toString n

/-- strftime("%Y%m%d_%H%M%S") over the datetime fields. -/
def format_compact (d : DateTime6) : String :=
  pad4 d.year ++ pad2 d.month ++ pad2 d.day ++ "_" ++
    pad2 d.hour ++ pad2 d.minute ++ pad2 d.second

/-- Embeds the filename built by ChatApp.save_dialog; its argument is the
value of datetime.now(), the local wall-clock time. -/
def save_dialog_filename (exportsDir : String) (localNow : DateTime6) : String :=
  exportsDir ++ "/chat_history_" ++ format_compact localNow ++ ".json"

/-- The filename convention of the spec, applied to a given timestamp:
chat_history_ followed by the compact rendering of that timestamp. -/
def convention_filename (exportsDir : String) (d : DateTime6) : String :=
  exportsDir ++ "/chat_history_" ++ format_compact d ++ ".json"

/-! ## Analytics aggregator -/

/-- One transcript entry as the aggregator sees it. -/
structure AEntry where
  timestampSec : ℚ
  tokens : Nat
deriving DecidableEq

structure Snapshot where
  totalMessages : Nat
  totalTokens : Nat
  tokensPerMessage : ℚ
  messagesPerMinute : ℚ
deriving DecidableEq

/-- Modelled from the spec: utils/analytics.py is not under src/.
aggregate derives the snapshot from the transcript alone: counts, token
totals, tokens-per-message (0 when the transcript is empty) and
messages-per-minute over the span between the first and last entry
timestamps (0 when fewer than 2 entries or zero elapsed time).  The wall
clock is passed as an explicit argument so that independence from it is a
statable property; the spec forbids its use. -/
def aggregate (_now : ℚ) (entries : List AEntry) : Snapshot :=
  let n := entries.length
  let tot := (entries.map AEntry.tokens).sum
  Snapshot.mk n tot
    (if n = 0 then 0 else (tot : ℚ) / (n : ℚ))
    (match entries.head?, entries.getLast? with
     | some first, some last =>
       if n < 2 ∨ last.timestampSec = first.timestampSec then 0
       else (n : ℚ) / ((last.timestampSec - first.timestampSec) / 60)
     | _, _ => 0)

/-! ## Theorems -/

theorem repr_digit (n : Nat) (h : n ≤ 9) :
    (toString n).length = 1 ∧ (toString n).data.all Char.isDigit = true := by
  interval_cases n <;> exact ⟨rfl, rfl⟩

/-- Claim C3: every PIN produced by the generation step is a string of
exactly 4 characters, each a decimal digit, given that each of the four
random.randint(0, 9) draws lies in 0..9. -/
theorem generate_pin_four_digits (draw : Fin 4 → Nat) (h : ∀ i, draw i ≤ 9) :
    (generate_pin draw).length = 4 ∧ (generate_pin draw).data.all Char.isDigit = true := by
  have h0 := repr_digit (draw 0) (h 0)
  have h1 := repr_digit (draw 1) (h 1)
  have h2 := repr_digit (draw 2) (h 2)
  have h3 := repr_digit (draw 3) (h 3)
  constructor
  · simp [generate_pin, String.length_append, h0.1, h1.1, h2.1, h3.1]
  · simp [generate_pin, String.data_append, List.all_append, h0.2, h1.2, h2.2, h3.2]

/-- Witness for C3 at the concrete draws 0, 1, 2, 3. -/
theorem generate_pin_four_digits_witness :
    (∀ i : Fin 4, (fun j : Fin 4 => (j : Nat)) i ≤ 9)
    ∧ ((generate_pin (fun j : Fin 4 => (j : Nat))).length = 4
       ∧ (generate_pin (fun j : Fin 4 => (j : Nat))).data.all Char.isDigit = true) :=
  ⟨by decide, generate_pin_four_digits _ (by decide)⟩

/-- Claim C10: clean_message removes the spans matched by the tag pattern
(its result is a subsequence of the input), the result contains no
substring matching the tag pattern at any position, and clean_message is
idempotent. -/
theorem clean_message_scrubs_tags :
    ∀ m : String,
      ((clean_message m).data).Sublist m.data
      ∧ hasTag (clean_message m).data = false
      ∧ clean_message (clean_message m) = clean_message m := by
  intro m
  refine ⟨cleanAux_sublist m.data, hasTag_cleanAux m.data, ?_⟩
  show String.mk (cleanAux (String.mk (cleanAux m.data)).data) = String.mk (cleanAux m.data)
  rw [show (String.mk (cleanAux m.data)).data = cleanAux m.data from rfl]
  rw [cleanAux_of_hasTag_false (hasTag_cleanAux m.data)]

/-- Claim C2 (amended): in the Locked state any submission whose PIN
fails verify_pin leaves the gate Locked showing an error, and the reached
UI state is a fixed point of resubmitting the same PIN: the application
keeps no failure counter and enforces no lockout. -/
theorem locked_stays_locked_no_counter (v : Vault) (ui : PinUi) (p : String)
    (h : verify_pin v p = false) :
    ∃ ui2, validate_pin v ui p = GateState.Locked ui2
      ∧ validate_pin v ui2 p = GateState.Locked ui2 := by
  have hv : ¬(verify_pin v p = true) := by simp [h]
  by_cases h0 : p = ""
  · exact ⟨show_error ui "Введите PIN-код",
      by unfold validate_pin; rw [if_pos h0],
      by unfold validate_pin; rw [if_pos h0]; rfl⟩
  · by_cases h1 : p.length ≠ 4
    · exact ⟨show_error ui "PIN-код должен содержать 4 цифры",
        by unfold validate_pin; rw [if_neg h0, if_pos h1],
        by unfold validate_pin; rw [if_neg h0, if_pos h1]; rfl⟩
    · by_cases h2 : p.toList.all Char.isDigit = true
      · have hd : ¬((!(p.toList.all Char.isDigit)) = true) := by rw [h2]; decide
        exact ⟨show_error ui "Неверный PIN-код",
          by unfold validate_pin; rw [if_neg h0, if_neg h1, if_neg hd, if_neg hv],
          by unfold validate_pin; rw [if_neg h0, if_neg h1, if_neg hd, if_neg hv]; rfl⟩
      · have hf : p.toList.all Char.isDigit = false := Bool.eq_false_iff.mpr h2
        have hd : (!(p.toList.all Char.isDigit)) = true := by rw [hf]; decide
        exact ⟨show_error ui "PIN-код должен содержать только цифры",
          by unfold validate_pin; rw [if_neg h0, if_neg h1, if_pos hd],
          by unfold validate_pin; rw [if_neg h0, if_neg h1, if_pos hd]; rfl⟩

/-- Witness for the amended C2 with stored PIN "4821" and submission
"0000" from the pristine UI state. -/
theorem locked_stays_locked_no_counter_witness :
    verify_pin (Vault.mk (some ("sk-test", "4821"))) "0000" = false
    ∧ ∃ ui2,
        validate_pin (Vault.mk (some ("sk-test", "4821"))) (PinUi.mk "" false false) "0000"
          = GateState.Locked ui2
        ∧ validate_pin (Vault.mk (some ("sk-test", "4821"))) ui2 "0000"
          = GateState.Locked ui2 :=
  ⟨rfl, locked_stays_locked_no_counter _ _ _ rfl⟩

/-- Claim C2 counterexample: with stored PIN "4821", submitting the wrong
PIN "0000" once from the pristine UI state and then again from the state
that failure produced yields the very same Locked state both times; the
process state after one and after two consecutive failures is one and the
same value, so nothing in it increments as a failure counter. -/
theorem locked_failure_state_identical :
    validate_pin (Vault.mk (some ("sk-test", "4821"))) (PinUi.mk "" false false) "0000"
      = GateState.Locked (PinUi.mk "Неверный PIN-код" true true)
    ∧ validate_pin (Vault.mk (some ("sk-test", "4821")))
        (PinUi.mk "Неверный PIN-код" true true) "0000"
      = GateState.Locked (PinUi.mk "Неверный PIN-код" true true) :=
  ⟨rfl, rfl⟩

/-- Claim C8: on launch, a present credential record puts the gate in
Locked and shows the PIN-entry screen; an absent record puts it in
NoCredential and shows the API-key-entry screen. -/
theorem launch_screen_state (v : Vault) :
    (has_credential v = true →
      initial_screen (has_credential v) = Screen.pinEntry
      ∧ initial_session_state (has_credential v) = SessionState.Locked)
    ∧ (has_credential v = false →
      initial_screen (has_credential v) = Screen.apiKeyEntry
      ∧ initial_session_state (has_credential v) = SessionState.NoCredential) := by
  constructor <;> intro h <;> simp [initial_screen, initial_session_state, h]

/-- Witness for C8 at a vault holding a record and at the empty vault. -/
theorem launch_screen_state_witness :
    (has_credential (Vault.mk (some ("sk-test", "4821"))) = true
      ∧ initial_screen (has_credential (Vault.mk (some ("sk-test", "4821")))) = Screen.pinEntry
      ∧ initial_session_state (has_credential (Vault.mk (some ("sk-test", "4821"))))
          = SessionState.Locked)
    ∧ (has_credential (Vault.mk none) = false
      ∧ initial_screen (has_credential (Vault.mk none)) = Screen.apiKeyEntry
      ∧ initial_session_state (has_credential (Vault.mk none)) = SessionState.NoCredential) :=
  ⟨⟨rfl,
    ((launch_screen_state (Vault.mk (some ("sk-test", "4821")))).1 rfl).1,
    ((launch_screen_state (Vault.mk (some ("sk-test", "4821")))).1 rfl).2⟩,
   ⟨rfl,
    ((launch_screen_state (Vault.mk none)).2 rfl).1,
    ((launch_screen_state (Vault.mk none)).2 rfl).2⟩⟩

/-- Claim C9: an empty message input (None or the empty string) makes
send_message return without any action: no API-completion call is issued,
nothing is appended to the transcript, and chat history and analytics
state are unchanged. -/
theorem send_message_empty_noop (st : AppState) (message : Option String)
    (api : String → String → ApiResponse) (model : String)
    (h : message = none ∨ message = some "") :
    send_message st message api model = SendOutcome.mk st [] := by
  rcases h with h | h <;> subst h <;> simp [send_message]

/-- Witness for C9 at the empty string on the empty application state. -/
theorem send_message_empty_noop_witness :
    ((some "" : Option String) = none ∨ (some "" : Option String) = some "")
    ∧ send_message (AppState.mk [] [] []) (some "")
        (fun _ _ => ApiResponse.apiError "x") "m"
      = SendOutcome.mk (AppState.mk [] [] []) [] :=
  ⟨Or.inr rfl, send_message_empty_noop _ _ _ _ (Or.inr rfl)⟩

/-- Claim C1: for every candidate PIN c, verify_pin after a successful
store_credential with PIN p is true iff c = p; in particular after storing
credential "sk-test" with PIN "4821", verify_pin "4821" is true,
verify_pin "0000" is false, and get_api_key returns "sk-test". -/
theorem verify_pin_iff_latest_stored :
    ∀ (v : Vault) (k p c : String),
      (verify_pin (store_credential v k p) c = true ↔ c = p)
      ∧ verify_pin (store_credential v "sk-test" "4821") "4821" = true
      ∧ verify_pin (store_credential v "sk-test" "4821") "0000" = false
      ∧ get_api_key (store_credential v "sk-test" "4821") = some "sk-test" := by
  intro v k p c
  refine ⟨?_, ?_, ?_, rfl⟩
  · simp [verify_pin, store_credential]
  · simp [verify_pin, store_credential]
  · simp [verify_pin, store_credential]

/-- Claim C4 (amended): when the completion collaborator returns an
error, send_message appends exactly one entry to the transcript store
(the append is performed, not rejected) whose tokens field is 0 and whose
response field is the error text prefixed with "Ошибка: ". -/
theorem error_exchange_appended (st : AppState) (model e m : String) (h : m ≠ "") :
    (send_message st (some m) (fun _ _ => ApiResponse.apiError e) model).state.transcript
      = st.transcript ++ [Entry.mk model m ("Ошибка: " ++ e) 0] := by
  simp [send_message, h, process_response]

/-- Witness for the amended C4: message "hi", error "boom". -/
theorem error_exchange_appended_witness :
    ("hi" : String) ≠ ""
    ∧ (send_message (AppState.mk [] [] []) (some "hi")
        (fun _ _ => ApiResponse.apiError "boom") "gpt").state.transcript
      = [] ++ [Entry.mk "gpt" "hi" ("Ошибка: " ++ "boom") 0] :=
  ⟨by decide, error_exchange_appended (AppState.mk [] [] []) "gpt" "boom" "hi" (by decide)⟩

/-- Claim C4 counterexample: for the completed exchange with message "hi"
where the collaborator returns the error text "boom", the entry is
appended with tokens 0, but its response field is "Ошибка: boom" and not
the raw error text "boom". -/
theorem error_response_not_raw :
    ((send_message (AppState.mk [] [] []) (some "hi")
        (fun _ _ => ApiResponse.apiError "boom") "gpt").state.transcript.map Entry.aiResponse
      = ["Ошибка: boom"])
    ∧ ((send_message (AppState.mk [] [] []) (some "hi")
        (fun _ _ => ApiResponse.apiError "boom") "gpt").state.transcript.map Entry.aiResponse
      ≠ ["boom"])
    ∧ ((send_message (AppState.mk [] [] []) (some "hi")
        (fun _ _ => ApiResponse.apiError "boom") "gpt").state.transcript.map Entry.tokens
      = [0]) := by
  refine ⟨rfl, by decide, rfl⟩

theorem parse_record_row (r : Row) : parse_record (row_to_json r) = some (row_record r) := rfl

/-- Claim C5: exporting the rows of read_all() and parsing the export
document back yields records field-for-field equal to the originals
(timestamp, model, user_message, ai_response, tokens), with string and
integer fidelity — strings, non-ASCII text included, are carried
verbatim. -/
theorem export_round_trip :
    ∀ rows : List Row, parse_export (export_document rows) = some (rows.map row_record) := by
  intro rows
  show (rows.map row_to_json).mapM parse_record = some (rows.map row_record)
  induction rows with
  | nil => rfl
  | cons r rs ih =>
    rw [List.map_cons, List.mapM_cons, parse_record_row, ih]
    rfl

/-- Claim C6 (amended): every export call writes a single document whose
filename is the exports directory, "chat_history_", a compact timestamp
and ".json"; the embedded timestamp renders datetime.now(), the LOCAL
wall-clock time at export, so whenever the local rendering differs from
the UTC rendering the produced name is not the UTC-convention name. -/
theorem export_filename_local (dir : String) (localNow utc : DateTime6)
    (h : format_compact localNow ≠ format_compact utc) :
    save_dialog_filename dir localNow = convention_filename dir localNow
    ∧ save_dialog_filename dir localNow ≠ convention_filename dir utc := by
  refine ⟨rfl, ?_⟩
  intro he
  apply h
  have hd := congrArg String.data he
  simp only [save_dialog_filename, convention_filename, String.data_append,
    List.append_assoc] at hd
  have h1 := List.append_cancel_left hd
  have h2 := List.append_cancel_left h1
  have h3 := List.append_cancel_right h2
  exact congrArg String.mk h3

/-- Witness for the amended C6: local 2026-10-12 15:00:00 versus UTC
2026-10-12 12:00:00 (a UTC+3 zone). -/
theorem export_filename_local_witness :
    format_compact (DateTime6.mk 2026 10 12 15 0 0)
      ≠ format_compact (DateTime6.mk 2026 10 12 12 0 0)
    ∧ (save_dialog_filename "exports" (DateTime6.mk 2026 10 12 15 0 0)
         = convention_filename "exports" (DateTime6.mk 2026 10 12 15 0 0)
       ∧ save_dialog_filename "exports" (DateTime6.mk 2026 10 12 15 0 0)
         ≠ convention_filename "exports" (DateTime6.mk 2026 10 12 12 0 0)) :=
  ⟨by decide, export_filename_local "exports" _ _ (by decide)⟩

/-- Claim C6 counterexample: at the instant 2026-10-12 12:00:00 UTC
observed in a UTC+3 zone, datetime.now() reads 2026-10-12 15:00:00, so
the written filename embeds the local rendering 20261012_150000 and is
not the UTC-convention name embedding 20261012_120000. -/
theorem export_filename_not_utc :
    save_dialog_filename "exports" (DateTime6.mk 2026 10 12 15 0 0)
      = "exports/chat_history_20261012_150000.json"
    ∧ save_dialog_filename "exports" (DateTime6.mk 2026 10 12 15 0 0)
      ≠ convention_filename "exports" (DateTime6.mk 2026 10 12 12 0 0) := by
  exact ⟨by decide, by decide⟩

/-- Claim C7: aggregate is a pure function of the transcript snapshot
alone; its time-rate field uses only the first and last entry timestamps
and never the wall clock, so evaluations at any two clock readings over
the same fixed transcript yield identical snapshots. -/
theorem aggregate_clock_independent :
    ∀ (now1 now2 : ℚ) (entries : List AEntry),
      aggregate now1 entries = aggregate now2 entries :=
  fun _ _ _ => rfl

end DesktopChatAI
